import Mathlib

set_option autoImplicit false

/-!
Verification of the memory paging, instruction history, virtual call stack and
breakpoint handling of the DeZog debugger core.

Sources embedded here:
* src/src/remotes/Paging/memorymodel.ts (memory models and bank descriptors)
* src/src/remotes/zsimulator/zx128memory.ts (ZxSimCpuHistory ring buffer)
* src/unnamed/part_003 (ZesaruxEmulator: call classification, reverse-debug
  stack reconstruction, breakpoints and watchpoints)
* src/unnamed/part_004 (debug adapter, consumer of the breakpoint results)

Machine integers are modelled as Nat or Int. JavaScript array indices that the
code keeps in variables that can transiently hold -1 are modelled as Int; array
reads and writes are modelled via List.get? and List.set on the Nat value of
the index (the translated functions are only applied on the reachable states,
where every dereferenced index is in range).
-/

namespace DeZog

/-! ## Memory model (src/src/remotes/Paging/memorymodel.ts) -/

/-- MemoryBank (memorymodel.ts:6-15): one slot/bank descriptor. The field
named "end" in the source is called endAddr here because end is a Lean
keyword. -/
structure MemoryBank where
  start : Nat
  endAddr : Nat
  name : String
deriving Repr, DecidableEq

/-- Decides that a descriptor list exactly covers the addresses from a
(inclusive) up to 0xFFFF: each descriptor starts exactly where the previous
one ended plus one, and the final end is 0xFFFF (that is, the next start
would be 0x10000). Applied at a = 0 this is the partition property of the
specification. -/
def isPartitionFrom : Nat → List MemoryBank → Bool
  | a, [] => a == 0x10000
  | a, b :: rest => (b.start == a) && isPartitionFrom (b.endAddr + 1) rest

/-- MemoryModel.getMemoryBanks (memorymodel.ts:55-58): the base class just
returns the hard-coded descriptor table given to the constructor. -/
def MemoryModel.getMemoryBanks (memoryBanks : List MemoryBank) : List MemoryBank :=
  memoryBanks

/-- Zx16MemoryModel (memorymodel.ts:74-82): hard-coded table of the ROM/RAM
split with a not-populated upper half. -/
def Zx16MemoryModel.memoryBanks : List MemoryBank :=
  [⟨0x0000, 0x3FFF, "ROM"⟩, ⟨0x4000, 0x7FFF, "RAM"⟩, ⟨0x8000, 0xFFFF, "N/A"⟩]

/-- Zx48MemoryModel (memorymodel.ts:90-97): hard-coded ROM/RAM split table. -/
def Zx48MemoryModel.memoryBanks : List MemoryBank :=
  [⟨0x0000, 0x3FFF, "ROM"⟩, ⟨0x4000, 0xFFFF, "RAM"⟩]

/-- Zx128MemoryModel.getMemoryBanks (memorymodel.ts:147-158). bankSize is
0x10000/countSlots, set by the MemoryModel constructor (memorymodel.ts:38).
The undefined slots argument is modelled as none. -/
def Zx128MemoryModel.getMemoryBanks (countSlots : Nat) (slots : Option (List Nat)) :
    List MemoryBank :=
  match slots with
  | some slots =>
      slots.mapIdx fun i bankIdx =>
        let bankSize := 0x10000 / countSlots
        let start := i * bankSize
        let endAddr := start + bankSize - 1
        let name := if i = 0 then "ROM" ++ toString (bankIdx &&& 0x01)
                    else "BANK" ++ toString bankIdx
        ⟨start, endAddr, name⟩
  | none => []

/-- ZxNextMemoryModel.getMemoryBanks (memorymodel.ts:212-223); the model is
constructed with 8 slots (memorymodel.ts:180), so bankSize = 0x10000/8. -/
def ZxNextMemoryModel.getMemoryBanks (slots : Option (List Nat)) : List MemoryBank :=
  match slots with
  | some slots =>
      slots.mapIdx fun i bank =>
        let bankSize := 0x10000 / 8
        let start := i * bankSize
        let endAddr := start + bankSize - 1
        let name := if bank ≥ 254 then "ROM" else "BANK" ++ toString bank
        ⟨start, endAddr, name⟩
  | none => []

/-- CustomMemoryModel.getMemoryBanks (memorymodel.ts:396-413): the owner
CustomMemory contributes its slot count (giving bankSize = 0x10000/slotCount),
its romBanks table, its notPopulatedBank index (-1 when every slot is
populated) and its current slots, used when the argument is undefined (none).
A JavaScript read of romBanks past its length yields undefined (falsy) and is
modelled by List.getD with default false. -/
def CustomMemoryModel.getMemoryBanks (slotCount : Nat) (romBanks : List Bool)
    (notPopulatedBank : Int) (ownerSlots : List Nat) (slotsArg : Option (List Nat)) :
    List MemoryBank :=
  let slots := slotsArg.getD ownerSlots
  let romCount := (romBanks.enum.filter
    fun p => p.2 && (p.1 : Int) ≠ notPopulatedBank).length
  let ramCount := romBanks.length - romCount
  slots.mapIdx fun i (bank : Nat) =>
    let bankSize := 0x10000 / slotCount
    let start := i * bankSize
    let endAddr := start + bankSize - 1
    let name := if (bank : Int) = notPopulatedBank then "N/A"
                else if romBanks.getD bank false then
                  (if romCount > 1 then "ROM" ++ toString bank else "ROM")
                else
                  (if ramCount > 1 then "BANK" ++ toString bank else "RAM")
    ⟨start, endAddr, name⟩

/-! ## Instruction history store (src/src/remotes/zsimulator/zx128memory.ts,
class ZxSimCpuHistory) -/

/-- Frame. Modelled from the spec: the Frame class (imported from ./frame, not
under src/) is the CallFrame of the spec, "(pc, sp, label)" created as
new Frame(pc, sp, name), plus the raw stack listing that part_003:481 pushes
return addresses onto ("the return address is appended to the current top
frame's raw stack listing"). -/
structure Frame where
  pc : Nat
  sp : Nat
  name : String
  stack : List Nat
deriving Repr, DecidableEq

/-- State of a ZxSimCpuHistory object. history, historyIndex and revDbgHistory
live in the base class CpuHistoryClass; historyWriteIndex is declared at
zx128memory.ts:57. historyIndex is the read cursor (-1 = live), and
historyWriteIndex the write cursor (-1 = nothing written yet). The element
type of the history lines is a parameter. -/
structure HistoryState (α : Type) where
  history : List α
  historyIndex : Int
  historyWriteIndex : Int
  revDbgHistory : List Nat
  reverseDbgStack : Option (List Frame)
deriving Repr, DecidableEq

/-- ZxSimCpuHistory.init (zx128memory.ts:69-72) sets historyWriteIndex := -1.
Modelled from the spec: the base class part, CpuHistoryClass.init (not under
src/), "resets to empty, write cursor = none, read cursor = live". -/
def ZxSimCpuHistory.init (α : Type) : HistoryState α :=
  { history := [], historyIndex := -1, historyWriteIndex := -1,
    revDbgHistory := [], reverseDbgStack := none }

/-- ZxSimCpuHistory.clear (zx128memory.ts:79-85): only resets the read cursor,
the coverage addresses and the virtual stack. The history array and the write
cursor are deliberately kept (see the comment at zx128memory.ts:76-78). -/
def ZxSimCpuHistory.clear {α : Type} (s : HistoryState α) : HistoryState α :=
  { s with historyIndex := -1, revDbgHistory := [], reverseDbgStack := none }

/-- ZxSimCpuHistory.pushHistoryInfo (zx128memory.ts:137-160). maxSize comes
from the settings via the base class. -/
def ZxSimCpuHistory.pushHistoryInfo {α : Type} (maxSize : Nat) (s : HistoryState α)
    (line : α) (exchange : Bool) : HistoryState α :=
  if exchange && s.history.length > 0 then
    { s with history := s.history.set s.historyWriteIndex.toNat line }
  else if s.history.length ≥ maxSize then
    let index := s.historyWriteIndex + 1
    let index := if index ≥ (maxSize : Int) then 0 else index
    { s with historyWriteIndex := index,
             history := s.history.set index.toNat line }
  else
    { s with history := s.history ++ [line],
             historyWriteIndex := s.historyWriteIndex + 1 }

/-- Pushing a whole list of lines with exchange = false, one
pushHistoryInfo call per line, oldest first. -/
def ZxSimCpuHistory.pushHistoryList {α : Type} (maxSize : Nat) (s : HistoryState α)
    (lines : List α) : HistoryState α :=
  lines.foldl (fun s l => ZxSimCpuHistory.pushHistoryInfo maxSize s l false) s

/-- ZxSimCpuHistory.getPrevRegistersAsync (zx128memory.ts:93-109). Returns the
result (undefined = none) together with the updated state. -/
def ZxSimCpuHistory.getPrevRegistersAsync {α : Type} (s : HistoryState α) :
    Option α × HistoryState α :=
  let index := s.historyIndex
  if index < 0 then
    let index := s.historyWriteIndex
    (s.history.get? index.toNat, { s with historyIndex := index })
  else
    let index := index - 1
    let index := if index < 0 then (s.history.length : Int) - 1 else index
    if index = s.historyWriteIndex then
      (none, s)
    else
      (s.history.get? index.toNat, { s with historyIndex := index })

/-- ZxSimCpuHistory.getNextRegisters (zx128memory.ts:116-128). Returns the
result (undefined = none) together with the updated state. -/
def ZxSimCpuHistory.getNextRegisters {α : Type} (s : HistoryState α) :
    Option α × HistoryState α :=
  let index := s.historyIndex
  if index = s.historyWriteIndex then
    (none, { s with historyIndex := -1 })
  else
    let index := index + 1
    let index := if index ≥ (s.history.length : Int) then 0 else index
    (s.history.get? index.toNat, { s with historyIndex := index })

/-! ## CALL/RST classification and the virtual call stack
(src/unnamed/part_003, class ZesaruxEmulator) -/

/-- The while loop of ZesaruxEmulator.findCallOrRst (part_003:405-419): scan
opc12 (the last two bytes, combined as b2*256+b3) for a byte matching the RST
pattern 11xxx111, starting at k = 1 with the low byte; on a hit the code runs
handler(k, opc12 and 0b00111000), on exhaustion handler(0, 0). -/
def findRstLoop (opc12 k : Nat) : Nat × Nat :=
  if h : opc12 = 0 then (0, 0)
  else if (opc12 &&& 0b11000111) = 0b11000111 then (k, opc12 &&& 0b00111000)
  else findRstLoop (opc12 >>> 8) (k + 1)
termination_by opc12
decreasing_by
  simpa [Nat.shiftRight_eq_div_pow] using
    Nat.div_lt_self (Nat.pos_of_ne_zero h) (by norm_num)

/-- ZesaruxEmulator.findCallOrRst (part_003:387-424), as the pure
classification of the 3 bytes b1, b2, b3 that were read at addr-3, addr-2 and
addr-1 (addr is the return address found on the stack). The pair (k, caddr)
that the code passes to its handler is returned: k = 3 with the CALL target,
k = 1 or 2 with the RST p value, or (0, 0) when neither matches. The hex
string parsing of the socket answer is modelled directly on the byte values:
parseInt(data.substr(0,2),16) = b1 and parseInt(data.substr(2,4),16) =
b2*256+b3. -/
def findCallOrRst (b1 b2 b3 : Nat) : Nat × Nat :=
  if b1 = 0xCD ∨ (b1 &&& 0b11000111) = 0b11000100 then
    let callAddr := b2 * 256 + b3
    let callAddr := (callAddr >>> 8) + ((callAddr &&& 0xFF) <<< 8)
    (3, callAddr)
  else
    findRstLoop (b2 * 256 + b3) 1

/-- Utility.getHexString. Modelled from the spec: the hexadecimal fallback
label of an unresolved symbol (Utility is not under src/); value printed in
uppercase hex, left-padded with zeros to the requested digit count. -/
def getHexString (value digits : Nat) : String :=
  let s := String.mk ((Nat.toDigits 16 value).map Char.toUpper)
  String.mk (List.replicate (digits - s.length) '0') ++ s

/-- One step of ZesaruxEmulator.setupCallStackFrameArray (part_003:462-486):
how one stack word addr, classified by findCallOrRst on the three bytes that
precede it, changes the frame list. RefList.addObject (RefList is not under
src/) appends the object and hands back its reference; it is modelled as an
append returning the position. labels models Labels.getLabelsForNumber. For
k = 0 the return address is pushed onto the stack listing of the frame at
lastCallFrameIndex and no frame is added. -/
def setupCallStackFrameStep (labels : Nat → List String) (frames : List Frame)
    (lastCallFrameIndex : Nat) (zStackAddress index addr b1 b2 b3 : Nat) :
    List Frame × Nat :=
  let (k, callAddr) := findCallOrRst b1 b2 b3
  if k = 3 then
    let labelCallAddrArr := labels callAddr
    let labelCallAddr := match labelCallAddrArr.head? with
      | some l => l
      | none => getHexString callAddr 4 ++ "h"
    (frames ++ [⟨addr - 3, zStackAddress + 2 * index, "CALL " ++ labelCallAddr, []⟩],
     frames.length)
  else if k = 1 ∨ k = 2 then
    let pString := getHexString callAddr 2 ++ "h"
    (frames ++ [⟨addr - k, zStackAddress + 2 * index, "RST " ++ pString, []⟩],
     frames.length)
  else
    (frames.modify (fun f => { f with stack := f.stack ++ [addr] }) lastCallFrameIndex,
     lastCallFrameIndex)

/-- String.startsWith of the source, modelled on the character list of the
string (the byte-array-level String.startsWith of the standard library does
not reduce in the kernel; on the character lists the two agree). -/
def strStartsWith (s p : String) : Bool :=
  p.data.isPrefixOf s.data

/-- One history line as consumed by the reverse-debug stack handlers: the
ZesaruxEmulator keeps them as transaction log strings and extracts the
instruction text, PC and SP through cpuTransactionLog.getInstruction,
Z80Registers.parsePC and Z80Registers.parseSP; the extracted values are the
fields here. -/
structure HLine where
  pc : Nat
  sp : Nat
  instr : String
deriving Repr, DecidableEq

/-- ZesaruxEmulator.handleReverseDebugStackFwrd (part_003:736-783). labels
models Labels.getLabelsForNumber. The reverseDbgStack is the frame list
(index 0 = top, unshift = cons, shift = drop head); the none result models
the stack being discarded (set to undefined) when nextLine does not exist. -/
def handleReverseDebugStackFwrd (labels : Nat → List String) (currentLine : HLine)
    (nextLine : Option HLine) (reverseDbgStack : List Frame) : Option (List Frame) :=
  match nextLine with
  | none => none
  | some next =>
    let s1 := reverseDbgStack.tail
    let s2 :=
      if strStartsWith currentLine.instr "RET" then s1.tail
      else if strStartsWith currentLine.instr "CALL" || strStartsWith currentLine.instr "RST" then
        if currentLine.sp > next.sp then
          let pc := currentLine.pc
          let callAddr := next.pc
          let labelCallAddr := match (labels callAddr).head? with
            | some l => l
            | none => getHexString callAddr 4 ++ "h"
          let name := (if strStartsWith currentLine.instr "CALL" then "CALL " else "RST ")
                        ++ labelCallAddr
          (⟨pc, currentLine.sp, name, []⟩ : Frame) :: s1
        else s1
      else s1
    some ((⟨next.pc, next.sp, "PC", []⟩ : Frame) :: s2)

/-! ## Breakpoints and watchpoints (src/unnamed/part_003) -/

/-- Zesarux.MAX_ZESARUX_BREAKPOINTS (part_003:26). -/
def MAX_ZESARUX_BREAKPOINTS : Nat := 100

/-- ZesaruxEmulator.MAX_USED_BREAKPOINTS (part_003:42). -/
def MAX_USED_BREAKPOINTS : Nat := MAX_ZESARUX_BREAKPOINTS - 1

/-- ZesaruxEmulator.STEP_BREAKPOINT_ID (part_003:45), reserved for step-out. -/
def STEP_BREAKPOINT_ID : Nat := 100

/-- EmulatorBreakpoint, with the fields that part_003 and part_004 use.
address = -1 marks the breakpoint as unverified (part_004:598 derives
verified from address >= 0). log = none models an undefined log. -/
structure EmulatorBreakpoint where
  bpId : Nat
  address : Int
  condition : String
  log : Option String
deriving Repr, DecidableEq

/-- The free-id pool built by ZesaruxEmulator.initBreakpoints (part_003:319-331):
ids 1 up to MAX_USED_BREAKPOINTS, in this order. -/
def initFreeBreakpointIds : List Nat :=
  (List.range MAX_USED_BREAKPOINTS).map (fun i => i + 1)

/-- The breakpoint-related state of a ZesaruxEmulator: the free-id pool and
the list of set breakpoints. -/
structure BpState where
  freeBreakpointIds : List Nat
  breakpoints : List EmulatorBreakpoint
deriving Repr, DecidableEq

/-- The warnings a ZesaruxEmulator call emits (this.emit with a warning) and
the commands it sends over the socket (zSocket.send), in order. -/
structure Emissions where
  warnings : List String
  commands : List String
deriving Repr, DecidableEq

/-- ZesaruxEmulator.setBreakpoint (part_003:1547-1598). convCond models
convertCondition (part_003:1505-1538), which rewrites the condition string
using the external Labels store; it is a parameter here, none modelling the
undefined result. The function returns the breakpoint id handed out (0 = no
breakpoint set), the possibly updated breakpoint, the new state and what was
emitted; it never throws. -/
def setBreakpoint (convCond : String → Option String) (st : BpState)
    (bp : EmulatorBreakpoint) : Nat × EmulatorBreakpoint × BpState × Emissions :=
  match bp.log with
  | some log =>
    (0, { bp with address := -1 }, st,
     ⟨["ZEsarUX does not support logpoints (\"" ++ log ++
       "\"). Instead a normal breakpoint is set."], []⟩)
  | none =>
    match convCond bp.condition with
    | none =>
      (0, { bp with address := -1 }, st,
       ⟨["Breakpoint: Can't set condition: " ++ bp.condition], []⟩)
    | some zesaruxCondition =>
      match st.freeBreakpointIds with
      | [] => (0, bp, st, ⟨[], []⟩)
      | id :: rest =>
        let bp := { bp with bpId := id }
        let condition :=
          if bp.address ≥ 0 then
            "PC=0" ++ getHexString bp.address.toNat 4 ++ "h" ++
              (if zesaruxCondition.length > 0 then " and (" ++ zesaruxCondition ++ ")" else "")
          else zesaruxCondition
        let shortCond := if condition.length < 50 then condition
                         else condition.take 50 ++ "..."
        (id, bp,
         { freeBreakpointIds := rest, breakpoints := st.breakpoints ++ [bp] },
         ⟨[], ["set-breakpointaction " ++ toString id ++ " prints breakpoint " ++
                 toString id ++ " hit (" ++ shortCond ++ ")",
               "set-breakpoint " ++ toString id ++ " " ++ condition,
               "enable-breakpoint " ++ toString id]⟩)

/-- ZesaruxEmulator.removeBreakpoint (part_003:1604-1616): disables the
breakpoint, removes it from the list and pushes the list position (the
indexOf result, not bp.bpId) onto the free-id pool. indexOf of an element
that is not in the list returns -1 in JavaScript; only the found case is
modelled (the caller only removes breakpoints it holds), with idx the
position of bp in st.breakpoints. -/
def removeBreakpoint (st : BpState) (bp : EmulatorBreakpoint) : BpState × Emissions :=
  let index := st.breakpoints.indexOf bp
  ({ freeBreakpointIds := st.freeBreakpointIds ++ [index],
     breakpoints := st.breakpoints.eraseIdx index },
   ⟨[], ["disable-breakpoint " ++ toString bp.bpId]⟩)

/-- Caller marking. Modelled from the spec: the intermediate caller
EmulatorClass.setBreakpoints (imported from ./emulator, not under src/) is the
"callers mark the breakpoint unverified" step of the spec - a breakpoint for
which setBreakpoint handed out no id keeps no address, and part_004:598
derives verified = (address >= 0). -/
def markUnverifiedIfNoId (retId : Nat) (bp : EmulatorBreakpoint) : EmulatorBreakpoint :=
  if retId = 0 then { bp with address := -1 } else bp

/-- Verified flag of the vscode breakpoint (part_004:596-599):
verified = (cbp.address >= 0). -/
def breakpointVerified (bp : EmulatorBreakpoint) : Bool :=
  bp.address ≥ 0

/-- GenericWatchpoint with the fields ZesaruxEmulator.setWatchpoints uses.
access is the access-mode string (containing r and/or w), conditions the
condition string ("" = no condition). -/
structure GenericWatchpoint where
  address : Nat
  size : Nat
  access : String
  conditions : String
deriving Repr, DecidableEq

/-- ZesaruxEmulator.setWatchpoints (part_003:1348-1381): returns the warnings
emitted and the commands sent. A watchpoint with a non-empty condition hits
the empty branch at part_003:1352-1357 (a comment block only); all others get
one set-membreakpoint command with the access type bits. -/
def setWatchpoints (watchPoints : List GenericWatchpoint) : Emissions :=
  watchPoints.foldl
    (fun e wp =>
      if wp.conditions.length > 0 then e
      else
        let type1 := if wp.access.data.contains 'r' then 1 else 0
        let type2 := if wp.access.data.contains 'w' then type1 ||| 2 else type1
        { e with commands := e.commands ++
            ["set-membreakpoint " ++ getHexString wp.address 4 ++ "h " ++
             toString type2 ++ " " ++ toString wp.size] })
    ⟨[], []⟩

/-- Invariant of a ZxSimCpuHistory state that has performed n pushHistoryInfo
calls with exchange = false since init: the length is n capped at maxSize and
the write cursor is (n-1) mod maxSize (or the initial -1 when nothing was
pushed yet). -/
def pushedInv {α : Type} (maxSize : Nat) (s : HistoryState α) (n : Nat) : Prop :=
  s.history.length = min n maxSize ∧
  s.historyWriteIndex = if n = 0 then -1 else (((n - 1) % maxSize : Nat) : Int)

/-! ## Helper lemmas for the bank-descriptor partition -/

lemma isPartitionFrom_of_uniform (B : Nat) (hB : 0 < B) :
    ∀ (bs : List MemoryBank) (j : Nat),
      (∀ (i : Nat) (h : i < bs.length),
        (bs.get ⟨i, h⟩).start = (j + i) * B ∧
        (bs.get ⟨i, h⟩).endAddr = (j + i) * B + B - 1) →
      bs ≠ [] → (j + bs.length) * B = 0x10000 →
      isPartitionFrom (j * B) bs = true := by
  intro bs
  induction bs with
  | nil => intro j _ hne _; exact absurd rfl hne
  | cons b rest ih =>
    intro j hu _ htot
    have hb := hu 0 (by simp)
    have hstart : b.start = j * B := by simpa using hb.1
    have hend : b.endAddr = j * B + B - 1 := by simpa using hb.2
    have hnext : b.endAddr + 1 = (j + 1) * B := by
      rw [hend, Nat.succ_mul]
      generalize j * B = x
      omega
    cases rest with
    | nil =>
      have h1 : (j + 1) * B = 0x10000 := by simpa using htot
      simp [isPartitionFrom, hstart, hnext, h1]
    | cons c rest2 =>
      have hrec : isPartitionFrom (b.endAddr + 1) (c :: rest2) = true := by
        rw [hnext]
        apply ih (j + 1)
        · intro i h
          have := hu (i + 1) (by simpa using Nat.succ_lt_succ h)
          simpa [Nat.add_assoc, Nat.add_comm 1 i] using this
        · simp
        · have heq : j + 1 + (c :: rest2).length = j + (b :: c :: rest2).length := by
            simp; omega
          rw [heq]; exact htot
      have hgoal : (b.start == j * B
          && isPartitionFrom (b.endAddr + 1) (c :: rest2)) = true := by
        rw [Bool.and_eq_true]
        exact ⟨by simp [hstart], hrec⟩
      exact hgoal

lemma chain_lt_of_isPartitionFrom :
    ∀ (bs : List MemoryBank) (a : Nat), (∀ b ∈ bs, b.start ≤ b.endAddr) →
      isPartitionFrom a bs = true → bs.Chain' (fun x y => x.start < y.start) := by
  intro bs
  induction bs with
  | nil => intro a _ _; simp
  | cons b rest ih =>
    intro a hle hp
    cases rest with
    | nil => simp
    | cons c rest2 =>
      have hp2 : (b.start == a
          && isPartitionFrom (b.endAddr + 1) (c :: rest2)) = true := hp
      rw [Bool.and_eq_true] at hp2
      have hrec := hp2.2
      have hc : c.start = b.endAddr + 1 := by
        have h3 : (c.start == b.endAddr + 1
            && isPartitionFrom (c.endAddr + 1) rest2) = true := hrec
        rw [Bool.and_eq_true] at h3
        simpa using h3.1
      refine List.chain'_cons.mpr ⟨?_, ?_⟩
      · have := hle b (by simp)
        omega
      · exact ih (b.endAddr + 1) (fun x hx => hle x (by simp [hx])) hrec

lemma paged_banks_ok (B : Nat) (hB : 0 < B) (f : Nat → Nat → MemoryBank)
    (hf : ∀ i b, (f i b).start = i * B ∧ (f i b).endAddr = i * B + B - 1)
    (slots : List Nat) (hne : slots ≠ []) (htot : slots.length * B = 0x10000) :
    isPartitionFrom 0 (slots.mapIdx f) = true ∧
      (slots.mapIdx f).Chain' (fun x y => x.start < y.start) := by
  have hlen : (slots.mapIdx f).length = slots.length := by simp
  have hu : ∀ (i : Nat) (h : i < (slots.mapIdx f).length),
      ((slots.mapIdx f).get ⟨i, h⟩).start = (0 + i) * B ∧
      ((slots.mapIdx f).get ⟨i, h⟩).endAddr = (0 + i) * B + B - 1 := by
    intro i h
    have hi : i < slots.length := by omega
    rw [List.get_mapIdx slots f i hi]
    simpa using hf i (slots.get ⟨i, hi⟩)
  have hne2 : slots.mapIdx f ≠ [] := by
    have hpos : 0 < (slots.mapIdx f).length := by
      rw [hlen]
      exact List.length_pos.mpr hne
    exact List.length_pos.mp hpos
  constructor
  · have := isPartitionFrom_of_uniform B hB (slots.mapIdx f) 0 hu hne2
      (by rw [hlen]; simpa using htot)
    simpa using this
  · apply chain_lt_of_isPartitionFrom (slots.mapIdx f) 0
    · intro x hx
      rcases List.mem_iff_get.mp hx with ⟨⟨i, h⟩, rfl⟩
      have := hu i h
      omega
    · have := isPartitionFrom_of_uniform B hB (slots.mapIdx f) 0 hu hne2
        (by rw [hlen]; simpa using htot)
      simpa using this

lemma bankSize_pos {n : Nat} (hdvd : n ∣ 0x10000) (hpos : 0 < n) :
    0 < 0x10000 / n := by
  apply Nat.div_pos _ hpos
  exact Nat.le_of_dvd (by norm_num) hdvd

lemma bankSize_total {n : Nat} (hdvd : n ∣ 0x10000) :
    n * (0x10000 / n) = 0x10000 :=
  Nat.mul_div_cancel' hdvd

/-! ## C1 -/

/-- C1: For every concrete memory-model variant and every concrete slot
assignment (a slot list of the length the model was constructed with),
getMemoryBanks returns descriptors in ascending start order that exactly
partition the addresses 0 to 0xFFFF: the first start is 0, each following
start is the previous end plus one, and the last end is 0xFFFF. The variants
are the hard-coded tables of Zx16MemoryModel (ROM/RAM plus not-populated) and
Zx48MemoryModel (ROM/RAM), returned unchanged by the base
MemoryModel.getMemoryBanks, and the paged Zx128MemoryModel (any slot count
dividing 0x10000), ZxNextMemoryModel (8 slots) and custom CustomMemoryModel
(any slot count dividing 0x10000, any romBanks table and not-populated bank
index). -/
theorem C1_getMemoryBanks_partition
    (countSlots : Nat) (slots slots8 slotsC : List Nat)
    (romBanks : List Bool) (npb : Int) (slotCountC : Nat) (ownerSlots : List Nat)
    (hdvd : countSlots ∣ 0x10000) (hpos : 0 < countSlots)
    (hlen : slots.length = countSlots)
    (hlen8 : slots8.length = 8)
    (hdvdC : slotCountC ∣ 0x10000) (hposC : 0 < slotCountC)
    (hlenC : slotsC.length = slotCountC) :
    (isPartitionFrom 0 (MemoryModel.getMemoryBanks Zx16MemoryModel.memoryBanks) = true ∧
      (MemoryModel.getMemoryBanks Zx16MemoryModel.memoryBanks).Chain'
        (fun x y => x.start < y.start)) ∧
    (isPartitionFrom 0 (MemoryModel.getMemoryBanks Zx48MemoryModel.memoryBanks) = true ∧
      (MemoryModel.getMemoryBanks Zx48MemoryModel.memoryBanks).Chain'
        (fun x y => x.start < y.start)) ∧
    (isPartitionFrom 0 (Zx128MemoryModel.getMemoryBanks countSlots (some slots)) = true ∧
      (Zx128MemoryModel.getMemoryBanks countSlots (some slots)).Chain'
        (fun x y => x.start < y.start)) ∧
    (isPartitionFrom 0 (ZxNextMemoryModel.getMemoryBanks (some slots8)) = true ∧
      (ZxNextMemoryModel.getMemoryBanks (some slots8)).Chain'
        (fun x y => x.start < y.start)) ∧
    (isPartitionFrom 0 (CustomMemoryModel.getMemoryBanks slotCountC romBanks npb
        ownerSlots (some slotsC)) = true ∧
      (CustomMemoryModel.getMemoryBanks slotCountC romBanks npb
        ownerSlots (some slotsC)).Chain' (fun x y => x.start < y.start)) := by
  have hne : slots ≠ [] := by
    intro h; rw [h] at hlen; simp at hlen; omega
  have hne8 : slots8 ≠ [] := by
    intro h; rw [h] at hlen8; simp at hlen8
  have hneC : slotsC ≠ [] := by
    intro h; rw [h] at hlenC; simp at hlenC; omega
  refine ⟨⟨by decide, by norm_num [MemoryModel.getMemoryBanks,
      Zx16MemoryModel.memoryBanks, List.chain'_cons, List.chain'_singleton]⟩,
    ⟨by decide, by norm_num [MemoryModel.getMemoryBanks,
      Zx48MemoryModel.memoryBanks, List.chain'_cons, List.chain'_singleton]⟩,
    ?_, ?_, ?_⟩
  · simp only [Zx128MemoryModel.getMemoryBanks]
    exact paged_banks_ok (0x10000 / countSlots) (bankSize_pos hdvd hpos) _
      (fun i b => ⟨rfl, rfl⟩) slots hne
      (by rw [hlen, bankSize_total hdvd])
  · simp only [ZxNextMemoryModel.getMemoryBanks]
    exact paged_banks_ok (0x10000 / 8) (by norm_num) _
      (fun i b => ⟨rfl, rfl⟩) slots8 hne8
      (by rw [hlen8])
  · simp only [CustomMemoryModel.getMemoryBanks]
    exact paged_banks_ok (0x10000 / slotCountC) (bankSize_pos hdvdC hposC) _
      (fun i b => ⟨rfl, rfl⟩) slotsC hneC
      (by rw [hlenC, bankSize_total hdvdC])

/-- C1 witness: the theorem applied to the concrete ZX128 power-up slot
assignment, the ZX Next default slot assignment and a two-slot custom model. -/
theorem C1_getMemoryBanks_partition_witness :
    isPartitionFrom 0 (Zx128MemoryModel.getMemoryBanks 4 (some [8, 5, 2, 0])) = true ∧
    isPartitionFrom 0 (ZxNextMemoryModel.getMemoryBanks
      (some [0xFE, 0xFF, 10, 11, 4, 5, 0, 1])) = true ∧
    isPartitionFrom 0 (CustomMemoryModel.getMemoryBanks 2 [true, false] (-1)
      [0, 1] (some [0, 1])) = true :=
  ⟨(C1_getMemoryBanks_partition 4 [8, 5, 2, 0] [0xFE, 0xFF, 10, 11, 4, 5, 0, 1]
      [0, 1] [true, false] (-1) 2 [0, 1] (by decide) (by decide) (by decide)
      (by decide) (by decide) (by decide) (by decide)).2.2.1.1,
   (C1_getMemoryBanks_partition 4 [8, 5, 2, 0] [0xFE, 0xFF, 10, 11, 4, 5, 0, 1]
      [0, 1] [true, false] (-1) 2 [0, 1] (by decide) (by decide) (by decide)
      (by decide) (by decide) (by decide) (by decide)).2.2.2.1.1,
   (C1_getMemoryBanks_partition 4 [8, 5, 2, 0] [0xFE, 0xFF, 10, 11, 4, 5, 0, 1]
      [0, 1] [true, false] (-1) 2 [0, 1] (by decide) (by decide) (by decide)
      (by decide) (by decide) (by decide) (by decide)).2.2.2.2.1⟩

/-! ## Helper lemmas for the ring buffer -/

lemma pushHistoryInfo_step {α : Type} (maxSize : Nat) (hms : 1 ≤ maxSize)
    (s : HistoryState α) (n : Nat) (l : α) (h : pushedInv maxSize s n) :
    pushedInv maxSize (ZxSimCpuHistory.pushHistoryInfo maxSize s l false) (n + 1) := by
  obtain ⟨hlen, hw⟩ := h
  unfold ZxSimCpuHistory.pushHistoryInfo
  simp only [Bool.false_and, Bool.false_eq_true, if_false]
  by_cases hcase : s.history.length ≥ maxSize
  · have hn : maxSize ≤ n := by omega
    have hn0 : n ≠ 0 := by omega
    have hlen2 : s.history.length = maxSize := by omega
    rw [if_pos hcase]
    have hr : (n - 1) % maxSize < maxSize := Nat.mod_lt _ (by omega)
    have hkey : ((n - 1) % maxSize + 1) % maxSize = n % maxSize := by
      rw [Nat.mod_add_mod]
      congr 1
      omega
    constructor
    · simp [List.length_set, hlen2]
      omega
    · simp only [hw, if_neg hn0, if_neg (show ¬ n + 1 = 0 by omega),
        Nat.add_sub_cancel]
      by_cases hwrap : ((((n - 1) % maxSize : Nat)) : Int) + 1 ≥ (maxSize : Int)
      · rw [if_pos hwrap]
        have heq : (n - 1) % maxSize + 1 = maxSize := by omega
        have hz : n % maxSize = 0 := by
          rw [← hkey, heq, Nat.mod_self]
        simp [hz]
      · rw [if_neg hwrap]
        have hlt : (n - 1) % maxSize + 1 < maxSize := by omega
        have hsucc : n % maxSize = (n - 1) % maxSize + 1 := by
          rw [← hkey, Nat.mod_eq_of_lt hlt]
        rw [hsucc]
        push_cast
        ring
  · rw [if_neg hcase]
    have hnm : n < maxSize := by omega
    constructor
    · simp only [List.length_append, List.length_singleton, hlen]
      omega
    · rw [hw]
      by_cases hn0 : n = 0
      · simp [hn0]
      · rw [if_neg hn0, if_neg (by omega : ¬ n + 1 = 0)]
        simp only [Nat.add_sub_cancel]
        have h1 : (n - 1) % maxSize = n - 1 := Nat.mod_eq_of_lt (by omega)
        have h2 : n % maxSize = n := Nat.mod_eq_of_lt hnm
        rw [h1, h2]
        omega

lemma pushHistoryList_inv {α : Type} (maxSize : Nat) (hms : 1 ≤ maxSize) :
    ∀ (ls : List α) (s : HistoryState α) (n : Nat), pushedInv maxSize s n →
      pushedInv maxSize (ZxSimCpuHistory.pushHistoryList maxSize s ls) (n + ls.length) := by
  intro ls
  induction ls with
  | nil => intro s n h; simpa [ZxSimCpuHistory.pushHistoryList] using h
  | cons l ls ih =>
    intro s n h
    have hstep := pushHistoryInfo_step maxSize hms s n l h
    have := ih (ZxSimCpuHistory.pushHistoryInfo maxSize s l false) (n + 1) hstep
    simpa [ZxSimCpuHistory.pushHistoryList, Nat.add_assoc, Nat.add_comm 1 ls.length]
      using this

lemma init_pushedInv {α : Type} (maxSize : Nat) :
    pushedInv maxSize (ZxSimCpuHistory.init α) 0 := by
  simp [pushedInv, ZxSimCpuHistory.init]

/-! ## C2 -/

/-- C2: Starting from the initialized (empty) ring buffer: pushing a list ls1
of fewer than maxSize lines with exchange = false gives buffer length
ls1.length and write cursor ls1.length - 1 (as an integer, so the empty push
sequence leaves the initial -1); pushing maxSize + K lines gives length
exactly maxSize and write cursor (K - 1) mod maxSize (integer mod, so K = 0
gives maxSize - 1); and one pushHistoryInfo with exchange = true on a
non-empty buffer whose write cursor is in range overwrites the entry at the
write cursor and changes neither the length nor the write or read cursor. -/
theorem C2_pushHistoryInfo_ring {α : Type} (maxSize : Nat) (K : Nat)
    (ls1 ls2 : List α) (s : HistoryState α) (l : α)
    (hms : 1 ≤ maxSize)
    (h1 : ls1.length < maxSize)
    (h2 : ls2.length = maxSize + K)
    (hne : s.history ≠ [])
    (hw0 : 0 ≤ s.historyWriteIndex)
    (hwlen : s.historyWriteIndex < (s.history.length : Int)) :
    ((ZxSimCpuHistory.pushHistoryList maxSize (ZxSimCpuHistory.init α) ls1).history.length
        = ls1.length ∧
      (ZxSimCpuHistory.pushHistoryList maxSize (ZxSimCpuHistory.init α) ls1).historyWriteIndex
        = (ls1.length : Int) - 1) ∧
    ((ZxSimCpuHistory.pushHistoryList maxSize (ZxSimCpuHistory.init α) ls2).history.length
        = maxSize ∧
      (ZxSimCpuHistory.pushHistoryList maxSize (ZxSimCpuHistory.init α) ls2).historyWriteIndex
        = ((K : Int) - 1) % (maxSize : Int)) ∧
    ((ZxSimCpuHistory.pushHistoryInfo maxSize s l true).history.length
        = s.history.length ∧
      (ZxSimCpuHistory.pushHistoryInfo maxSize s l true).historyWriteIndex
        = s.historyWriteIndex ∧
      (ZxSimCpuHistory.pushHistoryInfo maxSize s l true).historyIndex
        = s.historyIndex ∧
      (ZxSimCpuHistory.pushHistoryInfo maxSize s l true).history.get?
          s.historyWriteIndex.toNat = some l) := by
  refine ⟨?_, ?_, ?_⟩
  · have hinv := pushHistoryList_inv maxSize hms ls1 (ZxSimCpuHistory.init α) 0
      (init_pushedInv maxSize)
    obtain ⟨ha, hb⟩ := hinv
    simp only [Nat.zero_add] at ha hb
    constructor
    · rw [ha]; omega
    · rw [hb]
      by_cases hn0 : ls1.length = 0
      · simp [hn0]
      · rw [if_neg hn0]
        have hsm : (ls1.length - 1) % maxSize = ls1.length - 1 := Nat.mod_eq_of_lt (by omega)
        rw [hsm]
        omega
  · have hinv := pushHistoryList_inv maxSize hms ls2 (ZxSimCpuHistory.init α) 0
      (init_pushedInv maxSize)
    obtain ⟨ha, hb⟩ := hinv
    simp only [Nat.zero_add] at ha hb
    constructor
    · rw [ha]; omega
    · rw [hb, if_neg (show ¬ ls2.length = 0 by omega)]
      have hcast : (ls2.length - 1) % maxSize
          = (maxSize + K - 1) % maxSize := by rw [h2]
      rw [hcast]
      have hmain : (((maxSize + K - 1) % maxSize : Nat) : Int)
          = ((K : Int) - 1) % (maxSize : Int) := by
        have hrepr : ((maxSize + K - 1 : Nat) : Int) = ((K : Int) - 1) + (maxSize : Int) := by
          omega
        rw [Int.ofNat_emod, hrepr]
        simpa using Int.add_mul_emod_self_left ((K : Int) - 1) (maxSize : Int) 1
      exact hmain
  · have hlen0 : 0 < s.history.length := List.length_pos.mpr hne
    unfold ZxSimCpuHistory.pushHistoryInfo
    rw [if_pos (by simp [hlen0])]
    refine ⟨by simp, rfl, rfl, ?_⟩
    have hidx : s.historyWriteIndex.toNat < s.history.length := by omega
    rw [List.get?_eq_getElem?]
    exact List.getElem?_set_eq_of_lt l hidx

/-- C2 witness: maxSize 2, first pushing one line, then pushing three lines
(maxSize + 1), then an exchange push on a concrete non-empty state. -/
theorem C2_pushHistoryInfo_ring_witness :
    (ZxSimCpuHistory.pushHistoryList 2 (ZxSimCpuHistory.init Nat) [10]).history.length = 1 ∧
    (ZxSimCpuHistory.pushHistoryList 2 (ZxSimCpuHistory.init Nat)
        [10, 11, 12]).historyWriteIndex = ((1 : Int) - 1) % (2 : Int) ∧
    (ZxSimCpuHistory.pushHistoryInfo 2
        ⟨[10, 11], -1, 1, [], none⟩ 42 true).history.get? 1 = some 42 :=
  ⟨(C2_pushHistoryInfo_ring 2 1 [10] [10, 11, 12] ⟨[10, 11], -1, 1, [], none⟩ 42
      (by decide) (by decide) (by decide) (by decide) (by decide) (by decide)).1.1,
   (C2_pushHistoryInfo_ring 2 1 [10] [10, 11, 12] ⟨[10, 11], -1, 1, [], none⟩ 42
      (by decide) (by decide) (by decide) (by decide) (by decide) (by decide)).2.1.2,
   (C2_pushHistoryInfo_ring 2 1 [10] [10, 11, 12] ⟨[10, 11], -1, 1, [], none⟩ 42
      (by decide) (by decide) (by decide) (by decide) (by decide) (by decide)).2.2.2.2.2⟩

/-- Folding the two-step index decrement of getPrevRegistersAsync (decrement,
then wrap to length - 1 when negative) into a single integer mod. -/
lemma emod_pred (i len : Int) (h0 : 0 ≤ i) (hlen : i < len) :
    (i - 1) % len = if i - 1 < 0 then len - 1 else i - 1 := by
  by_cases hi : i - 1 < 0
  · have hi0 : i = 0 := by omega
    rw [if_pos hi, hi0]
    have h1 : (0 - 1 : Int) % len = (len - 1) % len := by
      calc (0 - 1 : Int) % len = (-1 : Int) % len := by norm_num
        _ = (-1 + len * 1) % len := (Int.add_mul_emod_self_left (-1) len 1).symm
        _ = (len - 1) % len := by ring_nf
    rw [h1, Int.emod_eq_of_lt (by omega) (by omega)]
  · rw [if_neg hi, Int.emod_eq_of_lt (by omega) (by omega)]

/-! ## C3 -/

/-- C3: On a non-empty buffer with a valid write cursor and a read cursor that
is either live (-1) or in range, getPrevRegistersAsync behaves as follows:
if the read cursor is live it moves the read cursor to the write cursor and
returns the entry there; otherwise it decrements the read cursor modulo the
buffer length, and returns the entry at the new position, except when the
decremented position equals the write cursor, in which case it returns none
and the state is unchanged. -/
theorem C3_getPrevRegistersAsync_stepBack {α : Type} (s : HistoryState α)
    (hne : s.history ≠ [])
    (hw0 : 0 ≤ s.historyWriteIndex)
    (hwlen : s.historyWriteIndex < (s.history.length : Int))
    (hr : s.historyIndex = -1 ∨
      (0 ≤ s.historyIndex ∧ s.historyIndex < (s.history.length : Int))) :
    (s.historyIndex = -1 →
      ZxSimCpuHistory.getPrevRegistersAsync s =
        (s.history.get? s.historyWriteIndex.toNat,
         { s with historyIndex := s.historyWriteIndex })) ∧
    (0 ≤ s.historyIndex →
      (s.historyIndex - 1) % (s.history.length : Int) = s.historyWriteIndex →
      ZxSimCpuHistory.getPrevRegistersAsync s = (none, s)) ∧
    (0 ≤ s.historyIndex →
      (s.historyIndex - 1) % (s.history.length : Int) ≠ s.historyWriteIndex →
      ZxSimCpuHistory.getPrevRegistersAsync s =
        (s.history.get? ((s.historyIndex - 1) % (s.history.length : Int)).toNat,
         { s with historyIndex := (s.historyIndex - 1) % (s.history.length : Int) })) := by
  refine ⟨?_, ?_, ?_⟩
  · intro hlive
    simp only [ZxSimCpuHistory.getPrevRegistersAsync]
    rw [if_pos (by omega)]
  · intro hge hwrap
    have hirange : s.historyIndex < (s.history.length : Int) := by
      rcases hr with h | h
      · omega
      · exact h.2
    simp only [ZxSimCpuHistory.getPrevRegistersAsync]
    rw [if_neg (by omega)]
    rw [← emod_pred s.historyIndex (s.history.length : Int) hge hirange]
    rw [if_pos hwrap]
  · intro hge hwrap
    have hirange : s.historyIndex < (s.history.length : Int) := by
      rcases hr with h | h
      · omega
      · exact h.2
    simp only [ZxSimCpuHistory.getPrevRegistersAsync]
    rw [if_neg (by omega)]
    rw [← emod_pred s.historyIndex (s.history.length : Int) hge hirange]
    rw [if_neg hwrap]

/-- C3 witness: a two-entry buffer stepped back from live, a two-entry buffer
hitting the full-wraparound stop, and a three-entry buffer stepping from
position 2 to position 1. -/
theorem C3_getPrevRegistersAsync_stepBack_witness :
    ZxSimCpuHistory.getPrevRegistersAsync
        (⟨[7, 8], -1, 1, [], none⟩ : HistoryState Nat) = (some 8, ⟨[7, 8], 1, 1, [], none⟩) ∧
    ZxSimCpuHistory.getPrevRegistersAsync
        (⟨[7, 8], 0, 1, [], none⟩ : HistoryState Nat) = (none, ⟨[7, 8], 0, 1, [], none⟩) ∧
    ZxSimCpuHistory.getPrevRegistersAsync
        (⟨[7, 8, 9], 2, 0, [], none⟩ : HistoryState Nat) = (some 8, ⟨[7, 8, 9], 1, 0, [], none⟩) := by
  refine ⟨?_, ?_, ?_⟩
  · have h := (C3_getPrevRegistersAsync_stepBack
      (⟨[7, 8], -1, 1, [], none⟩ : HistoryState Nat) (by decide) (by decide)
      (by decide) (Or.inl rfl)).1 rfl
    simpa using h
  · have h := (C3_getPrevRegistersAsync_stepBack
      (⟨[7, 8], 0, 1, [], none⟩ : HistoryState Nat) (by decide) (by decide)
      (by decide) (Or.inr (by decide))).2.1 (by decide) (by decide)
    simpa using h
  · have h := (C3_getPrevRegistersAsync_stepBack
      (⟨[7, 8, 9], 2, 0, [], none⟩ : HistoryState Nat) (by decide) (by decide)
      (by decide) (Or.inr (by decide))).2.2 (by decide) (by decide)
    simpa using h

/-! ## C4 -/

/-- C4: From the live state on any non-empty buffer, one step back
(getPrevRegistersAsync) followed by one step forward (getNextRegisters)
returns none and restores exactly the starting state: the buffer contents,
the length, the write cursor and the live read cursor are all unchanged. -/
theorem C4_stepBack_stepForward_roundtrip {α : Type} (s : HistoryState α)
    (hne : s.history ≠ []) (hlive : s.historyIndex = -1) :
    ZxSimCpuHistory.getNextRegisters
      (ZxSimCpuHistory.getPrevRegistersAsync s).2 = (none, s) := by
  rcases s with ⟨hist, hi, wi, rdh, rds⟩
  simp only at hlive
  subst hlive
  simp [ZxSimCpuHistory.getPrevRegistersAsync, ZxSimCpuHistory.getNextRegisters]

/-- C4 witness: the round trip on a one-entry buffer in the live state. -/
theorem C4_stepBack_stepForward_roundtrip_witness :
    ZxSimCpuHistory.getNextRegisters
      (ZxSimCpuHistory.getPrevRegistersAsync
        (⟨[5], -1, 0, [], none⟩ : HistoryState Nat)).2 =
      (none, (⟨[5], -1, 0, [], none⟩ : HistoryState Nat)) :=
  C4_stepBack_stepForward_roundtrip (⟨[5], -1, 0, [], none⟩ : HistoryState Nat)
    (by decide) rfl

/-- Masking a two-byte value with a mask below 256 only sees the low byte. -/
lemma land_low (a b m : Nat) (hb : b < 256) (hm : m < 256) :
    (a * 256 + b) &&& m = b &&& m := by
  apply Nat.eq_of_testBit_eq
  intro i
  rw [Nat.testBit_land, Nat.testBit_land]
  by_cases hik : i < 8
  · have h1 : Nat.testBit (a * 256 + b) i = Nat.testBit b i := by
      rw [show a * 256 + b = 2 ^ 8 * a + b by ring,
        Nat.testBit_mul_pow_two_add a (show b < 2 ^ 8 by norm_num; omega) i,
        if_pos hik]
    rw [h1]
  · have h2 : Nat.testBit m i = false := by
      apply Nat.testBit_eq_false_of_lt
      calc m < 256 := hm
        _ = 2 ^ 8 := by norm_num
        _ ≤ 2 ^ i := Nat.pow_le_pow_right (by norm_num) (by omega)
    rw [h2, Bool.and_false, Bool.and_false]

/-! ## C5 -/

/-- C5: Classification of the 3 bytes b1, b2, b3 ending at a return address.
If b1 is 0xCD or matches the conditional-CALL pattern 11xxx100, the result is
k = 3 (CALL) with target b3*256 + b2 (high byte after low byte), regardless
of the other two bytes, so a CALL is never read as a trailing RST byte.
Otherwise, if the last byte b3 matches the RST pattern 11xxx111 the result is
k = 1 with p = b3 masked with 0b00111000; failing that, if b2 matches the RST
pattern the result is k = 2 with p from b2. If none match, the result is
(0, 0) and the frame-array step of setupCallStackFrameArray adds no frame. -/
theorem C5_findCallOrRst_classification (b1 b2 b3 addr : Nat)
    (labels : Nat → List String) (frames : List Frame)
    (lastCallFrameIndex zStackAddress index : Nat)
    (hb1 : b1 < 256) (hb2 : b2 < 256) (hb3 : b3 < 256) :
    ((b1 = 0xCD ∨ b1 &&& 0b11000111 = 0b11000100) →
      findCallOrRst b1 b2 b3 = (3, b3 * 256 + b2)) ∧
    (¬ (b1 = 0xCD ∨ b1 &&& 0b11000111 = 0b11000100) →
      b3 &&& 0b11000111 = 0b11000111 →
      findCallOrRst b1 b2 b3 = (1, b3 &&& 0b00111000)) ∧
    (¬ (b1 = 0xCD ∨ b1 &&& 0b11000111 = 0b11000100) →
      b3 &&& 0b11000111 ≠ 0b11000111 →
      b2 &&& 0b11000111 = 0b11000111 →
      findCallOrRst b1 b2 b3 = (2, b2 &&& 0b00111000)) ∧
    (¬ (b1 = 0xCD ∨ b1 &&& 0b11000111 = 0b11000100) →
      b3 &&& 0b11000111 ≠ 0b11000111 →
      b2 &&& 0b11000111 ≠ 0b11000111 →
      findCallOrRst b1 b2 b3 = (0, 0) ∧
      (setupCallStackFrameStep labels frames lastCallFrameIndex zStackAddress
        index addr b1 b2 b3).1.length = frames.length) := by
  have hshift : (b2 * 256 + b3) >>> 8 = b2 := by
    rw [Nat.shiftRight_eq_div_pow]
    norm_num
    omega
  refine ⟨?_, ?_, ?_, ?_⟩
  · intro hcall
    simp only [findCallOrRst]
    rw [if_pos hcall]
    rw [show (0xFF : Nat) = 2 ^ 8 - 1 by norm_num,
      Nat.and_pow_two_sub_one_eq_mod, Nat.shiftLeft_eq, hshift]
    simp only [Prod.mk.injEq, true_and]
    have hmod : (b2 * 256 + b3) % 2 ^ 8 = b3 := by norm_num; omega
    rw [hmod]
    ring
  · intro hcall h3
    have hb3ne : b3 ≠ 0 := by
      intro h
      rw [h] at h3
      simp [Nat.zero_and] at h3
    simp only [findCallOrRst]
    rw [if_neg hcall]
    rw [findRstLoop, dif_neg (by omega : ¬ b2 * 256 + b3 = 0)]
    rw [if_pos (by rw [land_low b2 b3 _ hb3 (by norm_num)]; exact h3)]
    rw [land_low b2 b3 _ hb3 (by norm_num)]
  · intro hcall h3 h2
    have hb2ne : b2 ≠ 0 := by
      intro h
      rw [h] at h2
      simp [Nat.zero_and] at h2
    simp only [findCallOrRst]
    rw [if_neg hcall]
    rw [findRstLoop, dif_neg (by omega : ¬ b2 * 256 + b3 = 0)]
    rw [if_neg (by rw [land_low b2 b3 _ hb3 (by norm_num)]; exact h3)]
    rw [hshift]
    rw [findRstLoop, dif_neg hb2ne, if_pos h2]
  · intro hcall h3 h2
    have hres : findCallOrRst b1 b2 b3 = (0, 0) := by
      simp only [findCallOrRst]
      rw [if_neg hcall]
      by_cases hz : b2 * 256 + b3 = 0
      · rw [findRstLoop, dif_pos hz]
      · rw [findRstLoop, dif_neg hz]
        rw [if_neg (by rw [land_low b2 b3 _ hb3 (by norm_num)]; exact h3)]
        rw [hshift]
        by_cases hz2 : b2 = 0
        · rw [findRstLoop, dif_pos hz2]
        · rw [findRstLoop, dif_neg hz2, if_neg h2]
          rw [show b2 >>> 8 = 0 by rw [Nat.shiftRight_eq_div_pow]; norm_num; omega]
          rw [findRstLoop, dif_pos rfl]
    refine ⟨hres, ?_⟩
    simp [setupCallStackFrameStep, hres]

/-- C5 witness: an unconditional CALL 0x1234 (bytes CD 34 12), an RST in the
last byte (0xC7, giving p = 0), an esxdos-style RST in the second-to-last
byte, and three unrelated bytes classified as neither with an unchanged frame
count. -/
theorem C5_findCallOrRst_classification_witness :
    findCallOrRst 0xCD 0x34 0x12 = (3, 0x1234) ∧
    findCallOrRst 0x00 0x00 0xC7 = (1, 0x00) ∧
    findCallOrRst 0x00 0xC7 0x00 = (2, 0x00) ∧
    (findCallOrRst 0x3E 0x01 0x02 = (0, 0) ∧
      (setupCallStackFrameStep (fun _ => []) [⟨0x9000, 0xFF00, "PC", []⟩] 0 0xFF00 0
        0x8003 0x3E 0x01 0x02).1.length = 1) := by
  refine ⟨?_, ?_, ?_, ?_⟩
  · have h := (C5_findCallOrRst_classification 0xCD 0x34 0x12 0x8003 (fun _ => [])
      [⟨0x9000, 0xFF00, "PC", []⟩] 0 0xFF00 0 (by decide) (by decide) (by decide)).1
      (Or.inl rfl)
    simpa using h
  · have h := (C5_findCallOrRst_classification 0x00 0x00 0xC7 0x8003 (fun _ => [])
      [⟨0x9000, 0xFF00, "PC", []⟩] 0 0xFF00 0 (by decide) (by decide) (by decide)).2.1
      (by decide) (by decide)
    simpa using h
  · have h := (C5_findCallOrRst_classification 0x00 0xC7 0x00 0x8003 (fun _ => [])
      [⟨0x9000, 0xFF00, "PC", []⟩] 0 0xFF00 0 (by decide) (by decide) (by decide)).2.2.1
      (by decide) (by decide) (by decide)
    simpa using h
  · have h := (C5_findCallOrRst_classification 0x3E 0x01 0x02 0x8003 (fun _ => [])
      [⟨0x9000, 0xFF00, "PC", []⟩] 0 0xFF00 0 (by decide) (by decide) (by decide)).2.2.2
      (by decide) (by decide) (by decide)
    exact ⟨h.1, by simpa using h.2⟩

/-! ## C6 -/

/-- C6: Stepping forward through history from a CALL- or RST-class line L
(with a successor N and SP decreased from L to N), the reconstructor pops the
current top frame, pushes a frame for the call or rst labeled with the target
(the first symbol the label store returns for N's PC, or the hexadecimal
fallback), with the prefix CALL for CALL-class lines and RST for RST-class
lines, carrying L's pc and sp, and pushes a new top frame with N's pc, N's sp
and the label PC. When the successor does not exist the virtual stack is
discarded (none). Concretely: from the live stack [(pc 0x9000, sp 0xFF00,
PC)], a retired CALL to 0x8000 that decreased SP by 2 turns the stack into
[(0x8000, 0xFEFE, PC), (0x9000, 0xFF00, CALL L8000)] when the label store
maps 0x8000 to L8000. -/
theorem C6_handleReverseDebugStackFwrd_call (labels : Nat → List String)
    (cur n : HLine) (f : Frame) (rest : List Frame) (l : String) (ls : List String)
    (h2 : strStartsWith cur.instr "RET" = false)
    (hsp : n.sp < cur.sp) :
    (strStartsWith cur.instr "CALL" = true → labels n.pc = l :: ls →
      handleReverseDebugStackFwrd labels cur (some n) (f :: rest) =
        some (⟨n.pc, n.sp, "PC", []⟩ :: ⟨cur.pc, cur.sp, "CALL " ++ l, []⟩ :: rest)) ∧
    (strStartsWith cur.instr "CALL" = true → labels n.pc = [] →
      handleReverseDebugStackFwrd labels cur (some n) (f :: rest) =
        some (⟨n.pc, n.sp, "PC", []⟩ ::
          ⟨cur.pc, cur.sp, "CALL " ++ (getHexString n.pc 4 ++ "h"), []⟩ :: rest)) ∧
    (strStartsWith cur.instr "CALL" = false → strStartsWith cur.instr "RST" = true →
      labels n.pc = l :: ls →
      handleReverseDebugStackFwrd labels cur (some n) (f :: rest) =
        some (⟨n.pc, n.sp, "PC", []⟩ :: ⟨cur.pc, cur.sp, "RST " ++ l, []⟩ :: rest)) ∧
    (strStartsWith cur.instr "CALL" = false → strStartsWith cur.instr "RST" = true →
      labels n.pc = [] →
      handleReverseDebugStackFwrd labels cur (some n) (f :: rest) =
        some (⟨n.pc, n.sp, "PC", []⟩ ::
          ⟨cur.pc, cur.sp, "RST " ++ (getHexString n.pc 4 ++ "h"), []⟩ :: rest)) ∧
    handleReverseDebugStackFwrd labels cur none (f :: rest) = none := by
  refine ⟨?_, ?_, ?_, ?_, rfl⟩
  · intro h1 ha
    simp [handleReverseDebugStackFwrd, h1, h2, ha, hsp]
  · intro h1 ha
    simp [handleReverseDebugStackFwrd, h1, h2, ha, hsp]
  · intro h1 h1r ha
    simp [handleReverseDebugStackFwrd, h1, h1r, h2, ha, hsp]
  · intro h1 h1r ha
    simp [handleReverseDebugStackFwrd, h1, h1r, h2, ha, hsp]

/-- C6 witness: the concrete scenario of the specification - the label store
maps 0x8000 to L8000, the live stack is [(0x9000, 0xFF00, PC)] and the
retired CALL's successor line is at pc 0x8000 with sp 0xFEFE - together with
a retired RST-class line whose target 0x0038 has no symbol, labeled with the
hexadecimal fallback, and the discarded-stack case. -/
theorem C6_handleReverseDebugStackFwrd_call_witness :
    handleReverseDebugStackFwrd (fun a => if a = 0x8000 then ["L8000"] else [])
      ⟨0x9000, 0xFF00, "CALL 8000h"⟩ (some ⟨0x8000, 0xFEFE, "LD A,3Eh"⟩)
      [⟨0x9000, 0xFF00, "PC", []⟩] =
      some [⟨0x8000, 0xFEFE, "PC", []⟩, ⟨0x9000, 0xFF00, "CALL L8000", []⟩] ∧
    handleReverseDebugStackFwrd (fun _ => [])
      ⟨0x9000, 0xFF00, "RST 38h"⟩ (some ⟨0x0038, 0xFEFE, "LD A,3Eh"⟩)
      [⟨0x9000, 0xFF00, "PC", []⟩] =
      some [⟨0x0038, 0xFEFE, "PC", []⟩, ⟨0x9000, 0xFF00, "RST 0038h", []⟩] ∧
    handleReverseDebugStackFwrd (fun a => if a = 0x8000 then ["L8000"] else [])
      ⟨0x9000, 0xFF00, "CALL 8000h"⟩ none [⟨0x9000, 0xFF00, "PC", []⟩] = none := by
  have h := C6_handleReverseDebugStackFwrd_call
    (fun a => if a = 0x8000 then ["L8000"] else [])
    ⟨0x9000, 0xFF00, "CALL 8000h"⟩ ⟨0x8000, 0xFEFE, "LD A,3Eh"⟩
    ⟨0x9000, 0xFF00, "PC", []⟩ [] "L8000" []
    (by decide) (by decide)
  have hr := C6_handleReverseDebugStackFwrd_call (fun _ => [])
    ⟨0x9000, 0xFF00, "RST 38h"⟩ ⟨0x0038, 0xFEFE, "LD A,3Eh"⟩
    ⟨0x9000, 0xFF00, "PC", []⟩ [] "L8000" []
    (by decide) (by decide)
  refine ⟨by simpa using h.1 (by decide) (by decide), ?_, h.2.2.2.2⟩
  have hr2 := hr.2.2.2.1 (by decide) (by decide) rfl
  rw [hr2]
  decide

/-! ## C7 -/

/-- C7 counterexample: the claim says clear() truncates the buffer to length
zero, resets both cursors to their initial values and makes a following
step-back find no history. On the concrete mid-rewind state with history [7],
read cursor 0 and write cursor 0, all three parts fail: the history still has
length 1, the write cursor is still 0, and a step-back returns entry 7. -/
theorem C7_clear_counterexample :
    ¬ ((ZxSimCpuHistory.clear (⟨[7], 0, 0, [], none⟩ : HistoryState Nat)).history.length = 0 ∧
       (ZxSimCpuHistory.clear (⟨[7], 0, 0, [], none⟩ : HistoryState Nat)).historyWriteIndex = -1 ∧
       (ZxSimCpuHistory.getPrevRegistersAsync
         (ZxSimCpuHistory.clear (⟨[7], 0, 0, [], none⟩ : HistoryState Nat))).1 = none) := by
  decide

/-- C7 (amended): ZxSimCpuHistory.clear, from any state including mid-rewind,
resets only the read cursor to live (-1), empties the coverage address list
and discards the virtual stack; the history contents and the write cursor are
deliberately kept (the override comments that clearing the internal
simulator history would be counterproductive), so on a non-empty buffer with
a valid write cursor a subsequent step-back still finds history: it returns
the entry at the write cursor. -/
theorem C7_clear_keeps_history {α : Type} (s : HistoryState α)
    (hw0 : 0 ≤ s.historyWriteIndex)
    (hwlen : s.historyWriteIndex < (s.history.length : Int)) :
    (ZxSimCpuHistory.clear s).history = s.history ∧
    (ZxSimCpuHistory.clear s).historyWriteIndex = s.historyWriteIndex ∧
    (ZxSimCpuHistory.clear s).historyIndex = -1 ∧
    (ZxSimCpuHistory.clear s).revDbgHistory = [] ∧
    (ZxSimCpuHistory.clear s).reverseDbgStack = none ∧
    (ZxSimCpuHistory.getPrevRegistersAsync (ZxSimCpuHistory.clear s)).1 =
      s.history.get? s.historyWriteIndex.toNat ∧
    (ZxSimCpuHistory.getPrevRegistersAsync (ZxSimCpuHistory.clear s)).1.isSome = true := by
  refine ⟨rfl, rfl, rfl, rfl, rfl, ?_, ?_⟩
  · simp only [ZxSimCpuHistory.getPrevRegistersAsync, ZxSimCpuHistory.clear]
    rw [if_pos (by norm_num)]
  · simp only [ZxSimCpuHistory.getPrevRegistersAsync, ZxSimCpuHistory.clear]
    rw [if_pos (by norm_num)]
    have hidx : s.historyWriteIndex.toNat < s.history.length := by omega
    simp [List.get?_eq_getElem?, List.getElem?_eq_getElem hidx]

/-- C7 witness for the amended theorem: after clear() on the mid-rewind state
with history [7], a step-back still returns entry 7. -/
theorem C7_clear_keeps_history_witness :
    (ZxSimCpuHistory.clear (⟨[7], 0, 0, [], none⟩ : HistoryState Nat)).history = [7] ∧
    (ZxSimCpuHistory.getPrevRegistersAsync
      (ZxSimCpuHistory.clear (⟨[7], 0, 0, [], none⟩ : HistoryState Nat))).1.isSome = true := by
  have h := C7_clear_keeps_history (⟨[7], 0, 0, [], none⟩ : HistoryState Nat)
    (by decide) (by decide)
  exact ⟨h.1, h.2.2.2.2.2.2⟩

/-! ## C8 -/

/-- C8: The free breakpoint-id pool built by initBreakpoints holds exactly the
user ids 1 to 99 (the backend maximum 100 minus one reserved id) and never
the reserved step id 100; an allocation always hands out the head of the free
pool, so on the initial pool it never hands out the reserved id; and when the
pool is empty, setBreakpoint returns 0 without changing the state and without
sending any command, and the caller-side marking then leaves the breakpoint
unverified. -/
theorem C8_setBreakpoint_pool_exhausted (convCond : String → Option String)
    (st : BpState) (bp : EmulatorBreakpoint) (zc : String)
    (hlog : bp.log = none)
    (hconv : convCond bp.condition = some zc)
    (hpool : st.freeBreakpointIds = []) :
    ((setBreakpoint convCond st bp).1 = 0 ∧
      (setBreakpoint convCond st bp).2.2.1 = st ∧
      (setBreakpoint convCond st bp).2.2.2.commands = [] ∧
      breakpointVerified (markUnverifiedIfNoId (setBreakpoint convCond st bp).1
        (setBreakpoint convCond st bp).2.1) = false) ∧
    (∀ id ∈ initFreeBreakpointIds, 1 ≤ id ∧ id ≤ MAX_USED_BREAKPOINTS) ∧
    STEP_BREAKPOINT_ID ∉ initFreeBreakpointIds ∧
    (∀ (st2 : BpState) (bp2 : EmulatorBreakpoint) (id : Nat) (rest : List Nat),
      st2.freeBreakpointIds = id :: rest → bp2.log = none →
      convCond bp2.condition = some zc →
      (setBreakpoint convCond st2 bp2).1 = id) := by
  refine ⟨?_, ?_, ?_, ?_⟩
  · simp [setBreakpoint, hlog, hconv, hpool, markUnverifiedIfNoId, breakpointVerified]
  · intro id hid
    simp only [initFreeBreakpointIds, List.mem_map, List.mem_range] at hid
    obtain ⟨i, hi, rfl⟩ := hid
    simp only [MAX_USED_BREAKPOINTS, MAX_ZESARUX_BREAKPOINTS] at hi ⊢
    omega
  · intro hmem
    simp only [initFreeBreakpointIds, STEP_BREAKPOINT_ID, List.mem_map,
      List.mem_range] at hmem
    obtain ⟨i, hi, hcon⟩ := hmem
    simp only [MAX_USED_BREAKPOINTS, MAX_ZESARUX_BREAKPOINTS] at hi
    omega
  · intro st2 bp2 id rest hpool2 hlog2 hconv2
    simp [setBreakpoint, hlog2, hconv2, hpool2]

/-- C8 witness: an exhausted pool with a plain breakpoint at address 0x8000:
the returned id is 0, nothing is sent, and the caller-marked breakpoint is
unverified. -/
theorem C8_setBreakpoint_pool_exhausted_witness :
    (setBreakpoint (fun c => some c) ⟨[], []⟩
      (⟨0, 0x8000, "", none⟩ : EmulatorBreakpoint)).1 = 0 ∧
    breakpointVerified (markUnverifiedIfNoId
      (setBreakpoint (fun c => some c) ⟨[], []⟩
        (⟨0, 0x8000, "", none⟩ : EmulatorBreakpoint)).1
      (setBreakpoint (fun c => some c) ⟨[], []⟩
        (⟨0, 0x8000, "", none⟩ : EmulatorBreakpoint)).2.1) = false ∧
    STEP_BREAKPOINT_ID ∉ initFreeBreakpointIds := by
  have h := C8_setBreakpoint_pool_exhausted (fun c => some c) ⟨[], []⟩
    (⟨0, 0x8000, "", none⟩ : EmulatorBreakpoint) "" rfl rfl rfl
  exact ⟨h.1.1, h.1.2.2.2, h.2.2.1⟩

/-! ## C9 -/

/-- C9 counterexample: the claim says a watchpoint carrying a non-empty
condition makes setWatchpoints surface a warning. On the concrete call with
one conditioned watchpoint, no warning is emitted at all (the conditioned
branch of the source is a comment block): the emitted warning list is empty,
which negates the claimed warning. The watchpoint is indeed left unarmed (no
command is sent either). -/
theorem C9_setWatchpoints_counterexample :
    (setWatchpoints [⟨0x4000, 2, "rw", "A==3"⟩]).warnings = [] ∧
    (setWatchpoints [⟨0x4000, 2, "rw", "A==3"⟩]).commands = [] := by
  decide

/-- C9 (amended): setWatchpoints never emits a warning; a watchpoint with a
non-empty condition is silently skipped (no arming command is sent for it and
no error is raised), while every watchpoint without a condition is armed with
one set-membreakpoint command; processing always continues over the whole
list. -/
theorem C9_setWatchpoints_skips_conditioned (watchPoints : List GenericWatchpoint) :
    (setWatchpoints watchPoints).warnings = [] ∧
    (setWatchpoints watchPoints).commands =
      (watchPoints.filter (fun wp => wp.conditions.length == 0)).map
        (fun wp =>
          let type1 := if wp.access.data.contains 'r' then 1 else 0
          let type2 := if wp.access.data.contains 'w' then type1 ||| 2 else type1
          "set-membreakpoint " ++ getHexString wp.address 4 ++ "h " ++
            toString type2 ++ " " ++ toString wp.size) := by
  have main : ∀ (wps : List GenericWatchpoint) (e : Emissions),
      (wps.foldl
        (fun e wp =>
          if wp.conditions.length > 0 then e
          else
            let type1 := if wp.access.data.contains 'r' then 1 else 0
            let type2 := if wp.access.data.contains 'w' then type1 ||| 2 else type1
            { e with commands := e.commands ++
                ["set-membreakpoint " ++ getHexString wp.address 4 ++ "h " ++
                 toString type2 ++ " " ++ toString wp.size] }) e).warnings = e.warnings ∧
      (wps.foldl
        (fun e wp =>
          if wp.conditions.length > 0 then e
          else
            let type1 := if wp.access.data.contains 'r' then 1 else 0
            let type2 := if wp.access.data.contains 'w' then type1 ||| 2 else type1
            { e with commands := e.commands ++
                ["set-membreakpoint " ++ getHexString wp.address 4 ++ "h " ++
                 toString type2 ++ " " ++ toString wp.size] }) e).commands =
        e.commands ++ (wps.filter (fun wp => wp.conditions.length == 0)).map
          (fun wp =>
            let type1 := if wp.access.data.contains 'r' then 1 else 0
            let type2 := if wp.access.data.contains 'w' then type1 ||| 2 else type1
            "set-membreakpoint " ++ getHexString wp.address 4 ++ "h " ++
              toString type2 ++ " " ++ toString wp.size) := by
    intro wps
    induction wps with
    | nil => intro e; simp
    | cons wp wps ih =>
      intro e
      by_cases hc : wp.conditions.length > 0
      · have hfilter : (wp.conditions.length == 0) = false := by
          simp only [beq_eq_false_iff_ne, ne_eq]
          omega
        simp only [List.foldl_cons, if_pos hc, List.filter_cons, hfilter]
        exact ih e
      · have hfilter : (wp.conditions.length == 0) = true := by
          simp only [beq_iff_eq]
          omega
        simp only [List.foldl_cons, if_neg hc, List.filter_cons, hfilter]
        obtain ⟨w1, w2⟩ := ih _
        refine ⟨w1, ?_⟩
        rw [w2]
        simp
  exact main watchPoints ⟨[], []⟩

/-! ## C10 -/

/-- C10: removeBreakpoint pushes the position of the breakpoint in the
breakpoints list onto the free-id pool, not bp.bpId. Starting from the
initial pool, setBreakpoint hands out id 1; removing that breakpoint (the
only one, at list position 0) pushes 0 onto the pool: the handed-out id 1 is
not returned, and the pool now holds 0, which is outside the valid user-id
range 1 to 99. This evaluates the code at the failing input of the claim. -/
theorem C10_removeBreakpoint_pushes_index :
    (setBreakpoint (fun c => some c) ⟨initFreeBreakpointIds, []⟩
      (⟨0, 0x8000, "", none⟩ : EmulatorBreakpoint)).1 = 1 ∧
    (removeBreakpoint
      (setBreakpoint (fun c => some c) ⟨initFreeBreakpointIds, []⟩
        (⟨0, 0x8000, "", none⟩ : EmulatorBreakpoint)).2.2.1
      (setBreakpoint (fun c => some c) ⟨initFreeBreakpointIds, []⟩
        (⟨0, 0x8000, "", none⟩ : EmulatorBreakpoint)).2.1).1.freeBreakpointIds.getLast?
      = some 0 ∧
    1 ∉ (removeBreakpoint
      (setBreakpoint (fun c => some c) ⟨initFreeBreakpointIds, []⟩
        (⟨0, 0x8000, "", none⟩ : EmulatorBreakpoint)).2.2.1
      (setBreakpoint (fun c => some c) ⟨initFreeBreakpointIds, []⟩
        (⟨0, 0x8000, "", none⟩ : EmulatorBreakpoint)).2.1).1.freeBreakpointIds := by
  decide

end DeZog
